import Mathlib

/-!
Verification of the step controller of a grid-world agent simulation
(`controller.py`): movement integration, two-pass collision resolution
against solid grid cells, and coin collection.

Conventions of the embedding:
* Python floats are modelled as exact real numbers `ℝ`.
* Python's `round` (round-half-to-even) is modelled by `pyRound`.
* Python's float division raises `ZeroDivisionError` on a zero divisor;
  fallible computations therefore return `Option`, with `none` standing
  for a raised exception.
* The in-place mutation of `level.agent.coord` / `level.coins` is modelled
  by explicit state passing: each operation returns the new state.
-/

namespace Controller

/-- Python's built-in `round`: round half to even (banker's rounding).
For a non-tie, this is ordinary rounding to the nearest integer. -/
noncomputable def pyRound (x : ℝ) : ℤ :=
  if x - ⌊x⌋ = 1 / 2 then (if Even ⌊x⌋ then ⌊x⌋ else ⌊x⌋ + 1) else round x

/-- The grid: rows of cell values, `0` = open, nonzero = solid.
Row index increases downward; the world y-axis is flipped on access. -/
def Grid := List (List ℕ)

/-- Number of rows of the grid, `np.array(level.grid).shape[0]`. -/
def gridRows (g : Grid) : ℕ := g.length

/-- Number of columns of the grid, `np.array(level.grid).shape[1]` (the
grid is rectangular, so the first row's length is the column count). -/
def gridCols (g : Grid) : ℕ := (g.headD []).length

/-- The value stored for cell `(cx, cy)` in world coordinates:
`grid[grid_shape[0] - cy - 1][cx]` (the y-axis on the grid is flipped). -/
def cellValue (g : Grid) (cx cy : ℤ) : ℕ :=
  (g.getD (gridRows g - 1 - cy.toNat) []).getD cx.toNat 0

/-- The agent: continuous position and heading angle, as in `level.agent`. -/
structure Agent where
  coord : ℝ × ℝ
  theta : ℝ

/-- The level state the controller reads and writes: grid, agent, coins. -/
structure Level where
  grid : Grid
  agent : Agent
  coins : List (ℝ × ℝ)

/-- The configuration constants consumed at construction
(`args.agent_stride`, …). -/
structure Args where
  agent_stride : ℝ
  agent_stride_on_turn : ℝ
  agent_turn : ℝ
  agent_radius : ℝ
  coin_radius : ℝ

/-- Action constant `ACTION_WALK_FORWARD`.  Modelled from the spec: the repository's custom
`Enum` class (not under `src/`) hands out distinct consecutive integer
values by incrementing a counter, starting at the first call; the three
action constants are thus three distinct naturals `0`, `1`, `2`. -/
def ACTION_WALK_FORWARD : ℕ := 0

/-- Action constant `ACTION_TURN_LEFT` (second value of the counter). -/
def ACTION_TURN_LEFT : ℕ := 1

/-- Action constant `ACTION_TURN_RIGHT` (third value of the counter). -/
def ACTION_TURN_RIGHT : ℕ := 2

/-- One iteration step of the `while i < len(coins)` scan of
`_collect_coins`, translated structurally: if `coins[i]` is strictly
within the squared threshold it is deleted in place, and `i += 1` is
executed unconditionally afterwards — so after a deletion the element
that slid into index `i` is never examined. -/
noncomputable def collectScan (thr2 ax ay : ℝ) : List (ℝ × ℝ) → List (ℝ × ℝ)
  | [] => []
  | c :: rest =>
    if (c.1 - ax) * (c.1 - ax) + (c.2 - ay) * (c.2 - ay) < thr2 then
      match rest with
      | [] => []
      | d :: rest2 => d :: collectScan thr2 ax ay rest2
    else c :: collectScan thr2 ax ay rest

/-- Translation of `_collect_coins(coins, coin_radius, agent_x, agent_y,
agent_radius)`: returns the coin list after the scan. -/
noncomputable def collectCoins (coins : List (ℝ × ℝ)) (coin_radius agent_x agent_y agent_radius : ℝ) :
    List (ℝ × ℝ) :=
  collectScan ((agent_radius + coin_radius) * (agent_radius + coin_radius)) agent_x agent_y coins

/-- Translation of `Controller._handle_bounding_collision(cell)` (the
face pass for one cell): returns the corrected position and whether it changed.  The early
exits for out-of-bounds and open cells return the position unchanged with
a falsy result (`None` in Python). -/
noncomputable def handleBoundingCollision (g : Grid) (ar : ℝ) (cell : ℤ × ℤ) (pos : ℝ × ℝ) :
    (ℝ × ℝ) × Bool :=
  let cx := cell.1
  let cy := cell.2
  if cx < 0 ∨ cy < 0 ∨ (gridCols g : ℤ) ≤ cx ∨ (gridRows g : ℤ) ≤ cy then (pos, false)
  else if cellValue g cx cy = 0 then (pos, false)
  else
    let cx0 : ℝ := (cx : ℝ)
    let cx1 : ℝ := (cx : ℝ) + 1
    let cy0 : ℝ := (cy : ℝ)
    let cy1 : ℝ := (cy : ℝ) + 1
    let ccx : ℝ := (cx0 + cx1) / 2
    let ccy : ℝ := (cy0 + cy1) / 2
    let ax := pos.1
    let ay := pos.2
    let new_y : ℝ :=
      if cx0 ≤ ax ∧ ax ≤ cx1 then
        if ay > ccy ∧ ay - cy1 < ar then cy1 + ar
        else if ay < ccy ∧ cy0 - ay < ar then cy0 - ar
        else ay
      else ay
    let new_x : ℝ :=
      if cy0 ≤ ay ∧ ay ≤ cy1 then
        if ax > ccx ∧ ax - cx1 < ar then cx1 + ar
        else if ax < ccx ∧ cx0 - ax < ar then cx0 - ar
        else ax
      else ax
    ((new_x, new_y), if ax ≠ new_x ∨ ay ≠ new_y then true else false)

/-- Translation of `Controller._handle_corner_collision(cell)` (the
corner pass for one cell).  When the squared corner distance is below the squared radius the
code computes `dist = sqrt(dist2)` and divides by it; Python raises
`ZeroDivisionError` when `dist` is zero, modelled here by `none`. -/
noncomputable def handleCornerCollision (g : Grid) (ar : ℝ) (cell : ℤ × ℤ) (pos : ℝ × ℝ) :
    Option ((ℝ × ℝ) × Bool) :=
  let cx := cell.1
  let cy := cell.2
  if cx < 0 ∨ cy < 0 ∨ (gridCols g : ℤ) ≤ cx ∨ (gridRows g : ℤ) ≤ cy then some (pos, false)
  else if cellValue g cx cy = 0 then some (pos, false)
  else
    let cx0 : ℝ := (cx : ℝ)
    let cx1 : ℝ := (cx : ℝ) + 1
    let cy0 : ℝ := (cy : ℝ)
    let cy1 : ℝ := (cy : ℝ) + 1
    let ccx : ℝ := (cx0 + cx1) / 2
    let ccy : ℝ := (cy0 + cy1) / 2
    let ax := pos.1
    let ay := pos.2
    let ncx : ℝ := if ax ≤ ccx then cx0 else cx1
    let ncy : ℝ := if ay ≤ ccy then cy0 else cy1
    let vx := ax - ncx
    let vy := ay - ncy
    let dist2 := vx * vx + vy * vy
    if dist2 < ar * ar then
      let dist := Real.sqrt dist2
      if dist = 0 then none
      else
        let new_x := ncx + vx * ar / dist
        let new_y := ncy + vy * ar / dist
        some ((new_x, new_y), if ax ≠ new_x ∨ ay ≠ new_y then true else false)
    else some (pos, false)

/-- The four candidate cells of `_handle_collision`, sharing the grid
vertex nearest the agent's rounded position. -/
noncomputable def checkCells (pos : ℝ × ℝ) : List (ℤ × ℤ) :=
  let x := pyRound pos.1
  let y := pyRound pos.2
  [(x - 1, y - 1), (x - 1, y), (x, y), (x, y - 1)]

/-- The first loop of `_handle_collision`: apply the face check to each
cell in turn, OR-ing the per-cell collision results. -/
noncomputable def facePass (g : Grid) (ar : ℝ) :
    List (ℤ × ℤ) → (ℝ × ℝ) → Bool → (ℝ × ℝ) × Bool
  | [], pos, flag => (pos, flag)
  | c :: rest, pos, flag =>
    let r := handleBoundingCollision g ar c pos
    facePass g ar rest r.1 (flag || r.2)

/-- The second loop of `_handle_collision`: apply the corner check to each
cell in turn, OR-ing the per-cell collision results; a raised
`ZeroDivisionError` aborts the whole call. -/
noncomputable def cornerPass (g : Grid) (ar : ℝ) :
    List (ℤ × ℤ) → (ℝ × ℝ) → Bool → Option ((ℝ × ℝ) × Bool)
  | [], pos, flag => some (pos, flag)
  | c :: rest, pos, flag =>
    match handleCornerCollision g ar c pos with
    | none => none
    | some r => cornerPass g ar rest r.1 (flag || r.2)

/-- Translation of `Controller._handle_collision()`: compute the four candidate cells
from the rounded position, run the face loop over all of them, then the
corner loop over the same cells, and return the corrected position with
the OR of all per-cell results. -/
noncomputable def handleCollision (g : Grid) (ar : ℝ) (pos : ℝ × ℝ) :
    Option ((ℝ × ℝ) × Bool) :=
  let cells := checkCells pos
  let f := facePass g ar cells pos false
  cornerPass g ar cells f.1 f.2

/-- The tail of `Controller._walk` after the position update: collision
resolution on the moved position, then coin collection at the corrected
position. -/
noncomputable def resolveAndCollect (args : Args) (lv : Level) : Option (Level × Bool) :=
  match handleCollision lv.grid args.agent_radius lv.agent.coord with
  | none => none
  | some (p, flag) =>
    some ({ lv with
            agent := { lv.agent with coord := p },
            coins := collectCoins lv.coins args.coin_radius p.1 p.2 args.agent_radius },
          flag)

/-- Translation of `Controller._walk(theta, distance)`: move the agent by
`(distance·cos θ, distance·sin θ)`, then resolve collisions and collect
coins. -/
noncomputable def walk (args : Args) (lv : Level) (theta distance : ℝ) : Option (Level × Bool) :=
  resolveAndCollect args
    { lv with agent := { lv.agent with
        coord := (lv.agent.coord.1 + distance * Real.cos theta,
                  lv.agent.coord.2 + distance * Real.sin theta) } }

/-- Translation of `Controller.step(action)`: dispatch on the action value; an
unrecognized value falls through the `if/elif` chain, leaving the state
untouched and returning the initial `is_colliding = False`. -/
noncomputable def step (args : Args) (action : ℕ) (lv : Level) : Option (Level × Bool) :=
  if action = ACTION_WALK_FORWARD then
    walk args lv lv.agent.theta args.agent_stride
  else if action = ACTION_TURN_LEFT then
    let lv' := { lv with agent := { lv.agent with theta := lv.agent.theta + args.agent_turn } }
    walk args lv' lv'.agent.theta args.agent_stride_on_turn
  else if action = ACTION_TURN_RIGHT then
    let lv' := { lv with agent := { lv.agent with theta := lv.agent.theta - args.agent_turn } }
    walk args lv' lv'.agent.theta args.agent_stride_on_turn
  else some (lv, false)

/-! Derived geometric notions used to state the claims. -/

/-- Whether world cell `(cx, cy)` is inside the grid and solid
(nonzero value), exactly as tested by the per-cell checks. -/
def cellSolid (g : Grid) (cx cy : ℤ) : Prop :=
  ¬(cx < 0 ∨ cy < 0 ∨ (gridCols g : ℤ) ≤ cx ∨ (gridRows g : ℤ) ≤ cy) ∧ cellValue g cx cy ≠ 0

/-- Squared Euclidean distance from a point to the closed unit box
`[cx, cx+1] × [cy, cy+1]` of cell `(cx, cy)` (via coordinate clamping).
The open disc of radius `r` around `pos` meets the open interior of the
cell exactly when this is `< r * r`. -/
def clampDist2 (pos : ℝ × ℝ) (cx cy : ℤ) : ℝ :=
  let dx := max ((cx : ℝ) - pos.1) (max 0 (pos.1 - ((cx : ℝ) + 1)))
  let dy := max ((cy : ℝ) - pos.2) (max 0 (pos.2 - ((cy : ℝ) + 1)))
  dx * dx + dy * dy

/-- The no-penetration invariant: the agent's circle of radius `ar`
around `pos` overlaps the interior of no solid cell of the grid. -/
def noOverlap (g : Grid) (ar : ℝ) (pos : ℝ × ℝ) : Prop :=
  ∀ cx cy : ℤ, cellSolid g cx cy → ar * ar ≤ clampDist2 pos cx cy

/-- A hypothetical per-cell-interleaved collision pass (face check
immediately followed by the corner check for the same cell), used to show
that the implemented two-phase order is observably different. -/
noncomputable def interleavedPass (g : Grid) (ar : ℝ) :
    List (ℤ × ℤ) → (ℝ × ℝ) → Bool → Option ((ℝ × ℝ) × Bool)
  | [], pos, flag => some (pos, flag)
  | c :: rest, pos, flag =>
    let f := handleBoundingCollision g ar c pos
    match handleCornerCollision g ar c f.1 with
    | none => none
    | some r => interleavedPass g ar rest r.1 (flag || f.2 || r.2)

/-- Collision resolution with the two passes interleaved per cell. -/
noncomputable def interleavedCollision (g : Grid) (ar : ℝ) (pos : ℝ × ℝ) :
    Option ((ℝ × ℝ) × Bool) :=
  interleavedPass g ar (checkCells pos) pos false

/-! Concrete instances used in counterexamples and witnesses. -/

/-- A 2×2 grid whose solid cells are `(0,0)` (world box `[0,1]²`) and
`(1,1)` (world box `[1,2]²`); remember row 0 of the stored matrix is the
top row, i.e. world cells with `cy = 1`. -/
def g2 : Grid := [[0, 1], [1, 0]]

/-- A 2×2 grid whose solid cells are `(0,0)` and `(0,1)`: the world
column `x ∈ [0,1]` is a solid wall. -/
def g3 : Grid := [[1, 0], [1, 0]]

/-- A 1×1 grid with a single open cell. -/
def gOpen : Grid := [[0]]

/-- Configuration for the walk counterexample: stride `0.86`, agent
radius `0.3`, coin radius `0.05` (all below one cell). -/
noncomputable def argsW : Args := ⟨86 / 100, 1 / 2, 1, 3 / 10, 1 / 20⟩

/-- Start state for the walk counterexample: agent at `(-0.35, 0.51)`
heading `0`, clear of both solid cells of `g2` by more than its radius. -/
noncomputable def lvW : Level := ⟨g2, ⟨(-(35 / 100), 51 / 100), 0⟩, []⟩

/-- The state the walk counterexample ends in: agent centre `(0.7, 0.7)`,
strictly inside the solid cell `[0,1]²` of `g2`. -/
noncomputable def lvWBug : Level := ⟨g2, ⟨(7 / 10, 7 / 10), 0⟩, []⟩

/-- Configuration for the turn witnesses: `strideOnTurn = 0`,
`turnAngle = 1`. -/
noncomputable def argsT : Args := ⟨1, 0, 1, 1 / 4, 1 / 20⟩

/-- A level on the open grid with the agent far from every cell. -/
noncomputable def lvT : Level := ⟨gOpen, ⟨(5, 5), 0⟩, []⟩

/-- State `lvT` after one `TurnLeft` under `argsT`: heading `1`, unmoved. -/
noncomputable def lvT1 : Level := ⟨gOpen, ⟨(5, 5), 1⟩, []⟩

/-!
Theorems.  Shared helper lemmas come first, then one theorem per claim
(with witnesses for the theorems that carry hypotheses).
-/

/-- Collision resolution and coin collection never touch the heading. -/
lemma resolveAndCollect_some_theta (args : Args) (lv lv' : Level) (b : Bool)
    (h : resolveAndCollect args lv = some (lv', b)) : lv'.agent.theta = lv.agent.theta := by
  unfold resolveAndCollect at h
  cases hc : handleCollision lv.grid args.agent_radius lv.agent.coord with
  | none => rw [hc] at h; cases h
  | some r =>
    rw [hc] at h
    obtain ⟨p, flag⟩ := r
    simp only [Option.some.injEq, Prod.mk.injEq] at h
    rw [← h.1]

/-- A successful `_walk` leaves the heading it was given unchanged. -/
lemma walk_some_theta (args : Args) (lv : Level) (theta distance : ℝ) (lv' : Level) (b : Bool)
    (h : walk args lv theta distance = some (lv', b)) : lv'.agent.theta = lv.agent.theta := by
  have h' := resolveAndCollect_some_theta args
    { lv with agent := { lv.agent with
        coord := (lv.agent.coord.1 + distance * Real.cos theta,
                  lv.agent.coord.2 + distance * Real.sin theta) } } lv' b h
  simpa using h'

/-- Heading preservation of `_walk`, phrased on the `Option` result. -/
lemma walk_map_theta (args : Args) (lv : Level) (theta distance : ℝ) :
    (walk args lv theta distance).map (fun r => r.1.agent.theta) =
      (walk args lv theta distance).map (fun _ => lv.agent.theta) := by
  cases h : walk args lv theta distance with
  | none => rfl
  | some r =>
    obtain ⟨lv', b⟩ := r
    simpa using walk_some_theta args lv theta distance lv' b h

/-- An action matching none of the three constants falls through the
`if/elif` chain of `step`. -/
lemma step_fallthrough (args : Args) (a : ℕ) (lv : Level)
    (h0 : a ≠ ACTION_WALK_FORWARD) (h1 : a ≠ ACTION_TURN_LEFT) (h2 : a ≠ ACTION_TURN_RIGHT) :
    step args a lv = some (lv, false) := by
  unfold step
  rw [if_neg h0, if_neg h1, if_neg h2]

/-- Unfolding equation of `collectScan` on a non-empty list. -/
lemma collectScan_cons (thr2 ax ay : ℝ) (a : ℝ × ℝ) (rest : List (ℝ × ℝ)) :
    collectScan thr2 ax ay (a :: rest) =
      if (a.1 - ax) * (a.1 - ax) + (a.2 - ay) * (a.2 - ay) < thr2 then
        (match rest with
         | [] => []
         | d :: rest2 => d :: collectScan thr2 ax ay rest2)
      else a :: collectScan thr2 ax ay rest := by
  rw [collectScan.eq_def]

/-- Every coin whose squared distance is not strictly below the squared
threshold survives the scan (the scan deletes only close coins). -/
lemma collectScan_keeps_far (thr2 ax ay : ℝ) :
    ∀ (n : ℕ) (l : List (ℝ × ℝ)), l.length ≤ n → ∀ c ∈ l,
      ¬((c.1 - ax) * (c.1 - ax) + (c.2 - ay) * (c.2 - ay) < thr2) →
      c ∈ collectScan thr2 ax ay l := by
  intro n
  induction n with
  | zero =>
    intro l hl c hc _
    rw [List.length_eq_zero.mp (Nat.le_zero.mp hl)] at hc
    cases hc
  | succ n ih =>
    intro l hl c hc hfar
    match l with
    | [] => cases hc
    | a :: rest =>
      rw [collectScan_cons]
      by_cases ha : (a.1 - ax) * (a.1 - ax) + (a.2 - ay) * (a.2 - ay) < thr2
      · rw [if_pos ha]
        have hcr : c ∈ rest := by
          rcases List.mem_cons.mp hc with hrfl | hr
          · exact absurd ha (hrfl ▸ hfar)
          · exact hr
        match rest, hcr with
        | d :: rest2, hcr =>
          rcases List.mem_cons.mp hcr with hrfl | hr2
          · exact hrfl ▸ List.mem_cons_self d _
          · have hlen : rest2.length ≤ n := by
              simp only [List.length_cons] at hl
              omega
            exact List.mem_cons_of_mem d (ih rest2 hlen c hr2 hfar)
      · rw [if_neg ha]
        rcases List.mem_cons.mp hc with hrfl | hr
        · exact hrfl ▸ List.mem_cons_self a _
        · have hlen : rest.length ≤ n := by
            simp only [List.length_cons] at hl
            omega
          exact List.mem_cons_of_mem a (ih rest hlen c hr hfar)

/-- The only solid cells of `g2` are `(0,0)` and `(1,1)`. -/
lemma g2_solid_cells (cx cy : ℤ) (h : cellSolid g2 cx cy) :
    (cx = 0 ∧ cy = 0) ∨ (cx = 1 ∧ cy = 1) := by
  obtain ⟨hb, hv⟩ := h
  norm_num [gridCols, gridRows, g2] at hb
  obtain ⟨h1, h2, h3, h4⟩ := hb
  interval_cases cx <;> interval_cases cy <;>
    norm_num [cellValue, gridRows, g2, List.getD] at hv ⊢

/-- Cell `(0,0)` of `g2` is solid. -/
lemma g2_cellSolid_00 : cellSolid g2 0 0 := by
  norm_num [cellSolid, cellValue, gridRows, gridCols, g2, List.getD]

/-- Cell `(1,1)` of `g2` is solid. -/
lemma g2_cellSolid_11 : cellSolid g2 1 1 := by
  norm_num [cellSolid, cellValue, gridRows, gridCols, g2, List.getD]

/-- The open grid `gOpen` has no solid cell. -/
lemma gOpen_no_solid (cx cy : ℤ) (h : cellSolid gOpen cx cy) : False := by
  obtain ⟨hb, hv⟩ := h
  norm_num [gridCols, gridRows, gOpen] at hb
  obtain ⟨h1, h2, h3, h4⟩ := hb
  have hcx : cx = 0 := by omega
  have hcy : cy = 0 := by omega
  rw [hcx, hcy] at hv
  norm_num [cellValue, gridRows, gOpen, List.getD] at hv

/-- Evaluation of collision resolution on the moved position of the walk
counterexample: the face pass throws the agent across both solid cells of
`g2` and leaves its centre at `(0.7, 0.7)`, inside the solid `[0,1]²`. -/
lemma handleCollision_eval_walkbug :
    handleCollision g2 (3/10) (51/100, 51/100) = some ((7/10, 7/10), true) := by
  norm_num [handleCollision, checkCells, facePass, cornerPass, handleBoundingCollision,
    handleCornerCollision, cellValue, gridRows, gridCols, g2, pyRound, round_eq, List.getD]

/-- Evaluation of a second run of collision resolution from `(0.7, 0.7)`:
the position survives a round trip through both solid cells of `g2` and
the collision flag is `true` again. -/
lemma handleCollision_eval_rerun :
    handleCollision g2 (3/10) (7/10, 7/10) = some ((7/10, 7/10), true) := by
  norm_num [handleCollision, checkCells, facePass, cornerPass, handleBoundingCollision,
    handleCornerCollision, cellValue, gridRows, gridCols, g2, pyRound, round_eq, List.getD]

/-- Square root of `1/400`, needed to evaluate a fired corner push. -/
lemma sqrt_inv400 : Real.sqrt ((1 : ℝ)/400) = 1/20 := by
  rw [show ((1 : ℝ)/400) = (1/20)^2 by norm_num, Real.sqrt_sq]
  norm_num

/-- Square root of `400` (the form `norm_num` produces for the divisor). -/
lemma sqrt_400 : Real.sqrt (400 : ℝ) = 20 := by
  rw [show ((400 : ℝ)) = 20^2 by norm_num, Real.sqrt_sq]
  norm_num

/-- Evaluation of the implemented (two-phase) collision resolution on
`g3` at `(1.03, 1.04)`. -/
lemma handleCollision_eval_phase :
    handleCollision g3 (3/10) (103/100, 26/25) = some ((13/10, 26/25), true) := by
  norm_num [handleCollision, checkCells, facePass, cornerPass, handleBoundingCollision,
    handleCornerCollision, cellValue, gridRows, gridCols, g3, pyRound, round_eq, List.getD]

/-- Evaluation of the per-cell interleaved variant on the same input: the
corner check of cell `(0,0)` fires before the face check of cell `(0,1)`
has moved the agent, and the result differs. -/
lemma interleaved_eval :
    interleavedCollision g3 (3/10) (103/100, 26/25) = some ((13/10, 31/25), true) := by
  norm_num [interleavedCollision, interleavedPass, checkCells, handleBoundingCollision,
    handleCornerCollision, cellValue, gridRows, gridCols, g3, pyRound, round_eq, List.getD,
    sqrt_inv400, sqrt_400]

/-- If the circle of radius `ar` around the agent does not overlap the
interior of a cell, the face check for that cell is a no-op with a
`false` result. -/
lemma face_noop (g : Grid) (ar : ℝ) (cell : ℤ × ℤ) (pos : ℝ × ℝ) (har : 0 < ar)
    (h : cellSolid g cell.1 cell.2 → ar * ar ≤ clampDist2 pos cell.1 cell.2) :
    handleBoundingCollision g ar cell pos = (pos, false) := by
  obtain ⟨cx, cy⟩ := cell
  obtain ⟨ax, ay⟩ := pos
  unfold handleBoundingCollision
  dsimp only
  by_cases hoob : (cx < 0 ∨ cy < 0 ∨ (gridCols g : ℤ) ≤ cx ∨ (gridRows g : ℤ) ≤ cy)
  · rw [if_pos hoob]
  · rw [if_neg hoob]
    by_cases hval : cellValue g cx cy = 0
    · rw [if_pos hval]
    · rw [if_neg hval]
      have hclamp := h ⟨hoob, hval⟩
      unfold clampDist2 at hclamp
      dsimp only at hclamp
      have hdx0 : (0:ℝ) ≤ max ((cx:ℝ) - ax) (max 0 (ax - ((cx:ℝ) + 1))) :=
        le_trans (le_max_left 0 _) (le_max_right _ _)
      have hdy0 : (0:ℝ) ≤ max ((cy:ℝ) - ay) (max 0 (ay - ((cy:ℝ) + 1))) :=
        le_trans (le_max_left 0 _) (le_max_right _ _)
      have hY : (if (cx:ℝ) ≤ ax ∧ ax ≤ (cx:ℝ) + 1 then
          if ay > ((cy:ℝ) + ((cy:ℝ) + 1)) / 2 ∧ ay - ((cy:ℝ) + 1) < ar then ((cy:ℝ) + 1) + ar
          else if ay < ((cy:ℝ) + ((cy:ℝ) + 1)) / 2 ∧ (cy:ℝ) - ay < ar then (cy:ℝ) - ar
          else ay
        else ay) = ay := by
        by_cases h1 : (cx:ℝ) ≤ ax ∧ ax ≤ (cx:ℝ) + 1
        · rw [if_pos h1]
          have hdx : max ((cx:ℝ) - ax) (max 0 (ax - ((cx:ℝ) + 1))) = 0 := by
            rw [max_eq_left (by linarith [h1.2] : ax - ((cx:ℝ) + 1) ≤ 0)]
            exact max_eq_right (by linarith [h1.1])
          rw [hdx] at hclamp
          by_cases h2 : ay > ((cy:ℝ) + ((cy:ℝ) + 1)) / 2 ∧ ay - ((cy:ℝ) + 1) < ar
          · exfalso
            have hdy : max ((cy:ℝ) - ay) (max 0 (ay - ((cy:ℝ) + 1))) < ar :=
              max_lt (by linarith [h2.1]) (max_lt har h2.2)
            nlinarith [hclamp, hdy, hdy0, har]
          · rw [if_neg h2]
            by_cases h3 : ay < ((cy:ℝ) + ((cy:ℝ) + 1)) / 2 ∧ (cy:ℝ) - ay < ar
            · exfalso
              have hdy : max ((cy:ℝ) - ay) (max 0 (ay - ((cy:ℝ) + 1))) < ar :=
                max_lt h3.2 (max_lt har (by linarith [h3.1]))
              nlinarith [hclamp, hdy, hdy0, har]
            · rw [if_neg h3]
        · rw [if_neg h1]
      have hX : (if (cy:ℝ) ≤ ay ∧ ay ≤ (cy:ℝ) + 1 then
          if ax > ((cx:ℝ) + ((cx:ℝ) + 1)) / 2 ∧ ax - ((cx:ℝ) + 1) < ar then ((cx:ℝ) + 1) + ar
          else if ax < ((cx:ℝ) + ((cx:ℝ) + 1)) / 2 ∧ (cx:ℝ) - ax < ar then (cx:ℝ) - ar
          else ax
        else ax) = ax := by
        by_cases h1 : (cy:ℝ) ≤ ay ∧ ay ≤ (cy:ℝ) + 1
        · rw [if_pos h1]
          have hdy : max ((cy:ℝ) - ay) (max 0 (ay - ((cy:ℝ) + 1))) = 0 := by
            rw [max_eq_left (by linarith [h1.2] : ay - ((cy:ℝ) + 1) ≤ 0)]
            exact max_eq_right (by linarith [h1.1])
          rw [hdy] at hclamp
          by_cases h2 : ax > ((cx:ℝ) + ((cx:ℝ) + 1)) / 2 ∧ ax - ((cx:ℝ) + 1) < ar
          · exfalso
            have hdx : max ((cx:ℝ) - ax) (max 0 (ax - ((cx:ℝ) + 1))) < ar :=
              max_lt (by linarith [h2.1]) (max_lt har h2.2)
            nlinarith [hclamp, hdx, hdx0, har]
          · rw [if_neg h2]
            by_cases h3 : ax < ((cx:ℝ) + ((cx:ℝ) + 1)) / 2 ∧ (cx:ℝ) - ax < ar
            · exfalso
              have hdx : max ((cx:ℝ) - ax) (max 0 (ax - ((cx:ℝ) + 1))) < ar :=
                max_lt h3.2 (max_lt har (by linarith [h3.1]))
              nlinarith [hclamp, hdx, hdx0, har]
            · rw [if_neg h3]
        · rw [if_neg h1]
      rw [hX, hY]
      simp

/-- If the circle of radius `ar` around the agent does not overlap the
interior of a cell, the corner check for that cell is a no-op (in
particular, no division is reached). -/
lemma corner_noop (g : Grid) (ar : ℝ) (cell : ℤ × ℤ) (pos : ℝ × ℝ)
    (h : cellSolid g cell.1 cell.2 → ar * ar ≤ clampDist2 pos cell.1 cell.2) :
    handleCornerCollision g ar cell pos = some (pos, false) := by
  obtain ⟨cx, cy⟩ := cell
  obtain ⟨ax, ay⟩ := pos
  unfold handleCornerCollision
  dsimp only
  by_cases hoob : (cx < 0 ∨ cy < 0 ∨ (gridCols g : ℤ) ≤ cx ∨ (gridRows g : ℤ) ≤ cy)
  · rw [if_pos hoob]
  · rw [if_neg hoob]
    by_cases hval : cellValue g cx cy = 0
    · rw [if_pos hval]
    · rw [if_neg hval]
      have hclamp := h ⟨hoob, hval⟩
      unfold clampDist2 at hclamp
      dsimp only at hclamp
      have hdx0 : (0:ℝ) ≤ max ((cx:ℝ) - ax) (max 0 (ax - ((cx:ℝ) + 1))) :=
        le_trans (le_max_left 0 _) (le_max_right _ _)
      have hdy0 : (0:ℝ) ≤ max ((cy:ℝ) - ay) (max 0 (ay - ((cy:ℝ) + 1))) :=
        le_trans (le_max_left 0 _) (le_max_right _ _)
      have habs : ∀ u v : ℝ, u ≤ |v| → 0 ≤ u → u * u ≤ v * v := by
        intro u v huv hu
        have := mul_self_le_mul_self hu huv
        rwa [abs_mul_abs_self] at this
      by_cases hx : ax ≤ ((cx:ℝ) + ((cx:ℝ) + 1)) / 2
      · rw [if_pos hx]
        have hdxb : max ((cx:ℝ) - ax) (max 0 (ax - ((cx:ℝ) + 1))) ≤ |ax - (cx:ℝ)| := by
          refine max_le ?_ (max_le (abs_nonneg _) ?_)
          · rw [abs_sub_comm]; exact le_abs_self _
          · calc ax - ((cx:ℝ) + 1) ≤ ax - (cx:ℝ) := by linarith
              _ ≤ |ax - (cx:ℝ)| := le_abs_self _
        by_cases hy : ay ≤ ((cy:ℝ) + ((cy:ℝ) + 1)) / 2
        · rw [if_pos hy]
          have hdyb : max ((cy:ℝ) - ay) (max 0 (ay - ((cy:ℝ) + 1))) ≤ |ay - (cy:ℝ)| := by
            refine max_le ?_ (max_le (abs_nonneg _) ?_)
            · rw [abs_sub_comm]; exact le_abs_self _
            · calc ay - ((cy:ℝ) + 1) ≤ ay - (cy:ℝ) := by linarith
                _ ≤ |ay - (cy:ℝ)| := le_abs_self _
          rw [if_neg (not_lt.mpr (by
            nlinarith [habs _ _ hdxb hdx0, habs _ _ hdyb hdy0, hclamp]))]
        · rw [if_neg hy]
          have hdyb : max ((cy:ℝ) - ay) (max 0 (ay - ((cy:ℝ) + 1))) ≤ |ay - ((cy:ℝ) + 1)| := by
            push_neg at hy
            refine max_le ?_ (max_le (abs_nonneg _) (le_abs_self _))
            · calc (cy:ℝ) - ay ≤ 0 := by linarith
                _ ≤ |ay - ((cy:ℝ) + 1)| := abs_nonneg _
          rw [if_neg (not_lt.mpr (by
            nlinarith [habs _ _ hdxb hdx0, habs _ _ hdyb hdy0, hclamp]))]
      · rw [if_neg hx]
        have hdxb : max ((cx:ℝ) - ax) (max 0 (ax - ((cx:ℝ) + 1))) ≤ |ax - ((cx:ℝ) + 1)| := by
          push_neg at hx
          refine max_le ?_ (max_le (abs_nonneg _) (le_abs_self _))
          · calc (cx:ℝ) - ax ≤ 0 := by linarith
              _ ≤ |ax - ((cx:ℝ) + 1)| := abs_nonneg _
        by_cases hy : ay ≤ ((cy:ℝ) + ((cy:ℝ) + 1)) / 2
        · rw [if_pos hy]
          have hdyb : max ((cy:ℝ) - ay) (max 0 (ay - ((cy:ℝ) + 1))) ≤ |ay - (cy:ℝ)| := by
            refine max_le ?_ (max_le (abs_nonneg _) ?_)
            · rw [abs_sub_comm]; exact le_abs_self _
            · calc ay - ((cy:ℝ) + 1) ≤ ay - (cy:ℝ) := by linarith
                _ ≤ |ay - (cy:ℝ)| := le_abs_self _
          rw [if_neg (not_lt.mpr (by
            nlinarith [habs _ _ hdxb hdx0, habs _ _ hdyb hdy0, hclamp]))]
        · rw [if_neg hy]
          have hdyb : max ((cy:ℝ) - ay) (max 0 (ay - ((cy:ℝ) + 1))) ≤ |ay - ((cy:ℝ) + 1)| := by
            push_neg at hy
            refine max_le ?_ (max_le (abs_nonneg _) (le_abs_self _))
            · calc (cy:ℝ) - ay ≤ 0 := by linarith
                _ ≤ |ay - ((cy:ℝ) + 1)| := abs_nonneg _
          rw [if_neg (not_lt.mpr (by
            nlinarith [habs _ _ hdxb hdx0, habs _ _ hdyb hdy0, hclamp]))]

/-- Under the no-overlap invariant the whole face loop is the identity. -/
lemma facePass_noop (g : Grid) (ar : ℝ) (pos : ℝ × ℝ) (har : 0 < ar)
    (hno : noOverlap g ar pos) :
    ∀ (cells : List (ℤ × ℤ)) (flag : Bool), facePass g ar cells pos flag = (pos, flag) := by
  intro cells
  induction cells with
  | nil => intro flag; rfl
  | cons c rest ih =>
    intro flag
    rw [facePass]
    rw [face_noop g ar c pos har (fun hs => hno c.1 c.2 hs)]
    simpa using ih flag

/-- Under the no-overlap invariant the whole corner loop is the identity
and raises nothing. -/
lemma cornerPass_noop (g : Grid) (ar : ℝ) (pos : ℝ × ℝ)
    (hno : noOverlap g ar pos) :
    ∀ (cells : List (ℤ × ℤ)) (flag : Bool), cornerPass g ar cells pos flag = some (pos, flag) := by
  intro cells
  induction cells with
  | nil => intro flag; rfl
  | cons c rest ih =>
    intro flag
    rw [cornerPass]
    rw [corner_noop g ar c pos (fun hs => hno c.1 c.2 hs)]
    simpa using ih flag

/-- C1: the claimed no-penetration invariant fails on the code.  From the
valid start `lvW` (agent clear of every solid cell of `g2` by more than
its radius `0.3`), one `WalkForward` step with stride `0.86 < 1` and
radius `0.3 < 1` ends with the agent's centre at `(0.7, 0.7)`, strictly
inside the solid cell `[0,1]²`: the face pass throws the agent across the
two solid cells and never rechecks. -/
theorem step_no_penetration_violated :
    argsW.agent_stride < 1 ∧ argsW.agent_radius < 1 ∧ 0 < argsW.agent_radius ∧
    noOverlap g2 argsW.agent_radius lvW.agent.coord ∧
    step argsW ACTION_WALK_FORWARD lvW = some (lvWBug, true) ∧
    ¬ noOverlap g2 argsW.agent_radius lvWBug.agent.coord := by
  refine ⟨by norm_num [argsW], by norm_num [argsW], by norm_num [argsW], ?_, ?_, ?_⟩
  · intro cx cy hs
    rcases g2_solid_cells cx cy hs with ⟨rfl, rfl⟩ | ⟨rfl, rfl⟩ <;>
      norm_num [clampDist2, max_def, argsW, lvW]
  · norm_num [step, walk, resolveAndCollect, argsW, lvW, lvWBug, collectCoins, collectScan,
      ACTION_WALK_FORWARD, handleCollision_eval_walkbug]
  · intro hno
    have := hno 0 0 g2_cellSolid_00
    norm_num [clampDist2, max_def, argsW, lvWBug] at this

/-- C2: the scan of `_collect_coins` increments the index after an
in-place deletion and therefore skips the element that slid into the
deleted slot.  With agent `(2.1, 2)`, radii `0.1`/`0.05`, the coins
`(2,2)` and `(2.05,2)` are both strictly within the collection threshold,
yet the second one survives the call. -/
theorem collect_skips_after_removal :
    collectCoins [((2 : ℝ), 2), (41/20, 2)] (1/20) (21/10) 2 (1/10) = [(41/20, 2)] ∧
    ((41/20 : ℝ) - 21/10) * (41/20 - 21/10) + ((2 : ℝ) - 2) * (2 - 2) <
      ((1/10 : ℝ) + 1/20) * (1/10 + 1/20) := by
  constructor
  · norm_num [collectCoins, collectScan]
  · norm_num

/-- C3: the corner pass does not guard the division by the corner
distance.  With the agent's centre exactly on the corner `(1,1)` of the
solid cell `[1,2]²` of `g2`, the squared distance `0` is below the
squared radius, `dist = sqrt 0 = 0`, and the division raises
`ZeroDivisionError` (modelled by `none`) instead of skipping. -/
theorem corner_zero_distance_division :
    cellSolid g2 1 1 ∧ handleCornerCollision g2 (3/10) (1, 1) ((1 : ℝ), (1 : ℝ)) = none := by
  constructor
  · exact g2_cellSolid_11
  · norm_num [handleCornerCollision, cellValue, gridRows, gridCols, g2, List.getD]

/-- C4 counterexample: at the unrecognized action value `3`, `step` does
not raise an error (the result is not `none`); it silently returns the
unchanged state and `False`. -/
theorem step_invalid_not_error :
    step argsT 3 lvT = some (lvT, false) ∧ step argsT 3 lvT ≠ none := by
  have h : step argsT 3 lvT = some (lvT, false) :=
    step_fallthrough argsT 3 lvT (by decide) (by decide) (by decide)
  refine ⟨h, ?_⟩
  rw [h]
  exact fun hc => by cases hc

/-- C4 amended: for every action value that is not one of the three
recognized actions, `step` silently does nothing — it raises no error,
changes no state and returns `False`. -/
theorem step_invalid_silent_noop (args : Args) (a : ℕ) (lv : Level)
    (h0 : a ≠ ACTION_WALK_FORWARD) (h1 : a ≠ ACTION_TURN_LEFT) (h2 : a ≠ ACTION_TURN_RIGHT) :
    step args a lv = some (lv, false) :=
  step_fallthrough args a lv h0 h1 h2

/-- Witness for the amended C4 at the concrete action value `4`. -/
theorem step_invalid_silent_noop_witness :
    (4 ≠ ACTION_WALK_FORWARD ∧ 4 ≠ ACTION_TURN_LEFT ∧ 4 ≠ ACTION_TURN_RIGHT) ∧
    step argsT 4 lvT = some (lvT, false) :=
  ⟨⟨by decide, by decide, by decide⟩,
    step_invalid_silent_noop argsT 4 lvT (by decide) (by decide) (by decide)⟩

/-- C5: a coin whose squared distance to the agent equals the squared
threshold `(agentRadius + coinRadius)²` exactly is never deleted by
`collect()` — the membership test is a strict inequality on the squared
distance — so it is still in the collection afterwards. -/
theorem coin_at_threshold_kept (coins : List (ℝ × ℝ))
    (coin_radius agent_x agent_y agent_radius : ℝ)
    (c : ℝ × ℝ) (hmem : c ∈ coins)
    (hdist : (c.1 - agent_x) * (c.1 - agent_x) + (c.2 - agent_y) * (c.2 - agent_y) =
      (agent_radius + coin_radius) * (agent_radius + coin_radius)) :
    c ∈ collectCoins coins coin_radius agent_x agent_y agent_radius := by
  unfold collectCoins
  exact collectScan_keeps_far _ agent_x agent_y coins.length coins le_rfl c hmem
    (by rw [hdist]; exact lt_irrefl _)

/-- Witness for C5: a coin at `(2,2)` with the agent at `(2.15, 2)`,
radii `0.1` and `0.05`, sits exactly at the threshold distance `0.15` and
survives the scan. -/
theorem coin_at_threshold_kept_witness :
    (((2 : ℝ), (2 : ℝ)) ∈ [((2 : ℝ), (2 : ℝ))] ∧
      ((2 : ℝ) - 43/20) * ((2 : ℝ) - 43/20) + ((2 : ℝ) - 2) * ((2 : ℝ) - 2) =
        ((1/10 : ℝ) + 1/20) * ((1/10 : ℝ) + 1/20)) ∧
    ((2 : ℝ), (2 : ℝ)) ∈ collectCoins [((2 : ℝ), 2)] (1/20) (43/20) 2 (1/10) :=
  ⟨⟨by simp, by norm_num⟩,
    coin_at_threshold_kept [((2 : ℝ), 2)] (1/20) (43/20) 2 (1/10) (2, 2)
      (by simp) (by norm_num)⟩

/-- C6 counterexample: collision resolution is not idempotent on its own
outputs.  From `(0.51, 0.51)` a run of resolution on `g2` produces the
position `(0.7, 0.7)`; running resolution again from that produced
position reports a collision again (flag `true`, not `false`). -/
theorem resolution_not_idempotent :
    handleCollision g2 (3/10) (51/100, 51/100) = some ((7/10, 7/10), true) ∧
    handleCollision g2 (3/10) (7/10, 7/10) = some ((7/10, 7/10), true) ∧
    handleCollision g2 (3/10) (7/10, 7/10) ≠ some ((7/10, 7/10), false) := by
  refine ⟨handleCollision_eval_walkbug, handleCollision_eval_rerun, ?_⟩
  rw [handleCollision_eval_rerun]
  simp

/-- C6 amended: collision resolution is a no-op (position unchanged,
collision flag `false`, nothing raised) from every position at which the
agent's circle does not overlap the interior of any solid cell; it is
only on its own penetrating outputs that re-running it corrects again. -/
theorem resolution_fixpoint_of_noOverlap (g : Grid) (ar : ℝ) (pos : ℝ × ℝ)
    (har : 0 < ar) (hno : noOverlap g ar pos) :
    handleCollision g ar pos = some (pos, false) := by
  unfold handleCollision
  dsimp only
  rw [facePass_noop g ar pos har hno (checkCells pos) false]
  exact cornerPass_noop g ar pos hno (checkCells pos) false

/-- Witness for the amended C6 on the open grid. -/
theorem resolution_fixpoint_of_noOverlap_witness :
    (0:ℝ) < 1/4 ∧ noOverlap gOpen (1/4) (5, 5) ∧
      handleCollision gOpen (1/4) (5, 5) = some ((5, 5), false) := by
  have hno : noOverlap gOpen (1/4) (5, 5) := fun cx cy hs => absurd hs (by
    intro h
    exact gOpen_no_solid cx cy h)
  exact ⟨by norm_num, hno, resolution_fixpoint_of_noOverlap gOpen (1/4) (5, 5) (by norm_num) hno⟩

/-- C7: `_handle_collision` runs the face corrections for all four
candidate cells to completion and only then the corner corrections over
the same cells, feeding the corner loop the position updated by the face
loop; and this two-phase order is observably different from interleaving
the two checks per cell (witnessed on `g3` at `(1.03, 1.04)`). -/
theorem two_pass_order :
    (∀ (g : Grid) (ar : ℝ) (pos : ℝ × ℝ),
      handleCollision g ar pos =
        cornerPass g ar (checkCells pos) (facePass g ar (checkCells pos) pos false).1
          (facePass g ar (checkCells pos) pos false).2) ∧
    interleavedCollision g3 (3/10) (103/100, 26/25) ≠ handleCollision g3 (3/10) (103/100, 26/25) := by
  constructor
  · intro g ar pos
    rfl
  · rw [interleaved_eval, handleCollision_eval_phase]
    simp only [ne_eq, Option.some.injEq, Prod.mk.injEq]
    norm_num

/-- C8: `step(WalkForward)` moves the position by exactly
`(stride·cos θ, stride·sin θ)` before collision resolution and leaves the
heading unchanged; `step(TurnLeft)` first adds `turnAngle` to the heading
and moves `strideOnTurn` along the new heading; `step(TurnRight)` mirrors
this with the heading decreased by `turnAngle`. -/
theorem step_kinematics (args : Args) (lv : Level) :
    (step args ACTION_WALK_FORWARD lv =
      resolveAndCollect args { lv with agent := { lv.agent with
        coord := (lv.agent.coord.1 + args.agent_stride * Real.cos lv.agent.theta,
                  lv.agent.coord.2 + args.agent_stride * Real.sin lv.agent.theta) } }) ∧
    ((step args ACTION_WALK_FORWARD lv).map (fun r => r.1.agent.theta) =
      (step args ACTION_WALK_FORWARD lv).map (fun _ => lv.agent.theta)) ∧
    (step args ACTION_TURN_LEFT lv =
      resolveAndCollect args { lv with agent :=
        { coord := (lv.agent.coord.1 +
              args.agent_stride_on_turn * Real.cos (lv.agent.theta + args.agent_turn),
            lv.agent.coord.2 +
              args.agent_stride_on_turn * Real.sin (lv.agent.theta + args.agent_turn)),
          theta := lv.agent.theta + args.agent_turn } }) ∧
    ((step args ACTION_TURN_LEFT lv).map (fun r => r.1.agent.theta) =
      (step args ACTION_TURN_LEFT lv).map (fun _ => lv.agent.theta + args.agent_turn)) ∧
    (step args ACTION_TURN_RIGHT lv =
      resolveAndCollect args { lv with agent :=
        { coord := (lv.agent.coord.1 +
              args.agent_stride_on_turn * Real.cos (lv.agent.theta - args.agent_turn),
            lv.agent.coord.2 +
              args.agent_stride_on_turn * Real.sin (lv.agent.theta - args.agent_turn)),
          theta := lv.agent.theta - args.agent_turn } }) ∧
    ((step args ACTION_TURN_RIGHT lv).map (fun r => r.1.agent.theta) =
      (step args ACTION_TURN_RIGHT lv).map (fun _ => lv.agent.theta - args.agent_turn)) := by
  refine ⟨rfl, ?_, rfl, ?_, rfl, ?_⟩
  · exact walk_map_theta args lv lv.agent.theta args.agent_stride
  · exact walk_map_theta args
      { lv with agent := { lv.agent with theta := lv.agent.theta + args.agent_turn } }
      (lv.agent.theta + args.agent_turn) args.agent_stride_on_turn
  · exact walk_map_theta args
      { lv with agent := { lv.agent with theta := lv.agent.theta - args.agent_turn } }
      (lv.agent.theta - args.agent_turn) args.agent_stride_on_turn

/-- C9: `TurnLeft` immediately followed by `TurnRight` returns the
heading exactly to its original value (the embedding is exact, so the
floating tolerance is zero), whatever the two intervening moves do to the
position. -/
theorem turn_composition (args : Args) (lv lv1 lv2 : Level) (b1 b2 : Bool)
    (h1 : step args ACTION_TURN_LEFT lv = some (lv1, b1))
    (h2 : step args ACTION_TURN_RIGHT lv1 = some (lv2, b2)) :
    lv2.agent.theta = lv.agent.theta := by
  have h1' : walk args
      { lv with agent := { lv.agent with theta := lv.agent.theta + args.agent_turn } }
      (lv.agent.theta + args.agent_turn) args.agent_stride_on_turn = some (lv1, b1) := h1
  have h2' : walk args
      { lv1 with agent := { lv1.agent with theta := lv1.agent.theta - args.agent_turn } }
      (lv1.agent.theta - args.agent_turn) args.agent_stride_on_turn = some (lv2, b2) := h2
  have e1 := walk_some_theta args _ _ _ lv1 b1 h1'
  have e2 := walk_some_theta args _ _ _ lv2 b2 h2'
  simp only at e1 e2
  rw [e2, e1]
  ring

/-- Witness for C9: a left turn then a right turn on the open grid under
`argsT` bring the heading from `0` to `1` and back to `0`. -/
theorem turn_composition_witness :
    step argsT ACTION_TURN_LEFT lvT = some (lvT1, false) ∧
    step argsT ACTION_TURN_RIGHT lvT1 = some (lvT, false) ∧
    lvT.agent.theta = lvT.agent.theta := by
  have h1 : step argsT ACTION_TURN_LEFT lvT = some (lvT1, false) := by
    norm_num [step, walk, resolveAndCollect, handleCollision, checkCells, facePass, cornerPass,
      handleBoundingCollision, handleCornerCollision, cellValue, gridRows, gridCols,
      gOpen, argsT, lvT, lvT1, pyRound, round_eq, List.getD, collectCoins, collectScan,
      ACTION_WALK_FORWARD, ACTION_TURN_LEFT, ACTION_TURN_RIGHT]
  have h2 : step argsT ACTION_TURN_RIGHT lvT1 = some (lvT, false) := by
    norm_num [step, walk, resolveAndCollect, handleCollision, checkCells, facePass, cornerPass,
      handleBoundingCollision, handleCornerCollision, cellValue, gridRows, gridCols,
      gOpen, argsT, lvT, lvT1, pyRound, round_eq, List.getD, collectCoins, collectScan,
      ACTION_WALK_FORWARD, ACTION_TURN_LEFT, ACTION_TURN_RIGHT]
  exact ⟨h1, h2, turn_composition argsT lvT lvT1 lvT false false h1 h2⟩

/-- C10: an action value that is not one of the three recognized actions
leaves the agent position, the heading, the coin collection and the grid
unchanged (the whole level is returned as it was) and `step` returns
`False`. -/
theorem step_unknown_action_is_frame (args : Args) (a : ℕ) (lv : Level)
    (h0 : a ≠ ACTION_WALK_FORWARD) (h1 : a ≠ ACTION_TURN_LEFT) (h2 : a ≠ ACTION_TURN_RIGHT) :
    step args a lv = some (lv, false) :=
  step_fallthrough args a lv h0 h1 h2

/-- Witness for C10 at the concrete unrecognized action value `3`. -/
theorem step_unknown_action_is_frame_witness :
    (3 ≠ ACTION_WALK_FORWARD ∧ 3 ≠ ACTION_TURN_LEFT ∧ 3 ≠ ACTION_TURN_RIGHT) ∧
    step argsT 3 lvT = some (lvT, false) :=
  ⟨⟨by decide, by decide, by decide⟩,
    step_unknown_action_is_frame argsT 3 lvT (by decide) (by decide) (by decide)⟩

end Controller
